import Mathlib

/-!
Verification development for `jupyter2typst` (`src/main.rs`), a converter
from Jupyter notebook JSON to Typst source.  The Rust program is embedded
shallowly below: JSON values become the inductive `Json`, `HashMap` objects
become association lists (the program only performs key lookups, never map
iteration, so lookup order is all that matters), and every aborting path of
the Rust code — `Err` returns through `?`, `panic!`/`expect`/`unwrap`
aborts, the `assert!` in `format_cell`, and out-of-bounds indexing in
`main` — is modelled as an explicit error outcome.
-/

set_option autoImplicit false

namespace J2T

/-- JSON values as parsed by `tinyjson`.  Numbers are modelled as integers:
the program converts `execution_count` to `f64` only to display it, and
notebook execution counts are integral, so integer display matches the Rust
`{}` formatting on those inputs. -/
inductive Json where
  | null
  | bool (b : Bool)
  | num (n : Int)
  | str (s : String)
  | arr (elems : List Json)
  | obj (entries : List (String × Json))

/-- The error type of `main.rs` (`J2TError` / `J2TErrorKind`), extended with
a `fatal` constructor that models Rust panics (`expect`, `unwrap`,
`assert!`, missing-key indexing): both `Err` results and panics abort the
whole conversion run. -/
inductive J2TError where
  | json (msg : String)
  | md (msg : String)
  | fatal (msg : String)
deriving DecidableEq

/-- The `Context` struct: verbosity flag and kernel language. -/
structure Context where
  verbose : Bool
  lang : String

/-- Key lookup in a JSON object, the counterpart of `HashMap::get`. -/
def jlookup (key : String) : List (String × Json) → Option Json
  | [] => none
  | (k, v) :: rest => if k = key then some v else jlookup key rest

/-- `Vec::<JsonValue>::try_from` — succeeds exactly on JSON arrays. -/
def Json.asArr? : Json → Option (List Json)
  | .arr xs => some xs
  | _ => none

/-- `HashMap::<String, JsonValue>::try_from` — succeeds exactly on objects. -/
def Json.asObj? : Json → Option (List (String × Json))
  | .obj m => some m
  | _ => none

/-- `String::try_from` on a JSON value — succeeds exactly on strings. -/
def Json.asStr? : Json → Option String
  | .str s => some s
  | _ => none

/-- `f64::try_from` on a JSON value — succeeds exactly on numbers. -/
def Json.asNum? : Json → Option Int
  | .num n => some n
  | _ => none

/-- Left-to-right effectful map, the counterpart of collecting an iterator
of fallible conversions: the first failure aborts. -/
def mapExcept {α β : Type} (f : α → Except J2TError β) : List α → Except J2TError (List β)
  | [] => .ok []
  | a :: rest =>
    match f a with
    | .error e => .error e
    | .ok b => (mapExcept f rest).map (b :: ·)

/-- `strip_ansi_codes`: the Rust body is `// TODO: implement this` followed
by returning the argument unchanged. -/
def strip_ansi_codes (s : String) : String := s

/-- The element-wise part of `join_json_lines_array`: each array element is
converted with `TryInto::<String>` and `unwrap` (panic on a non-string),
then the strings are joined with the empty separator. -/
def joinStrs : List Json → Except J2TError String
  | [] => .ok ""
  | .str s :: rest => (joinStrs rest).map (s ++ ·)
  | _ :: _ => .error (.fatal "called unwrap on a non-string line")

/-- `join_json_lines_array`: convert a JSON value to a vector (panic via
`expect` when it is not an array), unwrap every element to a string, and
concatenate. -/
def join_json_lines_array (lines : Json) : Except J2TError String :=
  match lines.asArr? with
  | none => .error (.fatal "could not convert string array to vec of json values")
  | some xs => joinStrs xs

/-- The triple extracted from one output record by the `get_type` closure of
`format_cell_result`: `(output_type, text, data)`. -/
structure Kind where
  output_type : Option String
  text : Option Json
  data : Option Json

/-- The `get_type` closure: each output record must be a JSON object
(`expect "output object in cell"`); its `output_type`, when present, must be
a string (`expect "output type is string"`); the `text` and `data` fields
are taken as-is. -/
def get_type (output : Json) : Except J2TError Kind :=
  match output.asObj? with
  | none => .error (.fatal "output object in cell")
  | some o =>
    match jlookup "output_type" o with
    | some v =>
      match v.asStr? with
      | some s => .ok ⟨some s, jlookup "text" o, jlookup "data" o⟩
      | none => .error (.fatal "output type is string")
    | none => .ok ⟨none, jlookup "text" o, jlookup "data" o⟩

/-- The `// Type stream` half of the loop body of `format_cell_result`: when
the record has a `text` field, join and strip it. -/
def probe_text (k : Kind) : Except J2TError (Option String) :=
  match k.text with
  | some t => (join_json_lines_array t).map (fun s => some (strip_ansi_codes s))
  | none => .ok none

/-- One iteration of the inner loop of `format_cell_result`: a record whose
`output_type` matches the pass's type is probed first for a `data` mapping
with a `text/plain` entry (the mapping must be an object, `expect`), and
otherwise for a `text` field.  A non-matching record yields nothing. -/
def probe_kind (result_type : String) (k : Kind) : Except J2TError (Option String) :=
  if k.output_type = some result_type then
    match k.data with
    | some data_obj =>
      match data_obj.asObj? with
      | none => .error (.fatal "jsonvalue to hashmap failed for parsing cell output data")
      | some data =>
        match jlookup "text/plain" data with
        | some e => (join_json_lines_array e).map (fun s => some (strip_ansi_codes s))
        | none => probe_text k
    | none => probe_text k
  else .ok none

/-- The inner `for k in kinds.iter()` loop of `format_cell_result` for one
`result_type`: first record that yields a representation wins. -/
def scan_pass (result_type : String) : List Kind → Except J2TError (Option String)
  | [] => .ok none
  | k :: ks =>
    match probe_kind result_type k with
    | .error e => .error e
    | .ok (some s) => .ok (some s)
    | .ok none => scan_pass result_type ks

/-- `format_cell_result` (the `ctx` parameter of the Rust function is
unused and omitted): read `outputs` (missing-key indexing panics), convert
it to a vector (`?` on failure), extract every record's `Kind` eagerly, then
run the two-pass scan — all `execute_result` records first, then all
`stream` records — returning the empty string when neither pass selects. -/
def format_cell_result (cell : List (String × Json)) : Except J2TError String :=
  match jlookup "outputs" cell with
  | none => .error (.fatal "no entry found for key outputs")
  | some outputsJson =>
    match outputsJson.asArr? with
    | none => .error (.json "unexpected value for outputs")
    | some content =>
      match mapExcept get_type content with
      | .error e => .error e
      | .ok kinds =>
        match scan_pass "execute_result" kinds with
        | .error e => .error e
        | .ok (some s) => .ok s
        | .ok none =>
          match scan_pass "stream" kinds with
          | .error e => .error e
          | .ok (some s) => .ok s
          | .ok none => .ok ""

/-- The Markdown AST node grammar (`markdown::mdast::Node`), restricted to
the constructors relevant to this program: the six kinds the translator
handles plus representatives of every unhandled kind, which all fall into
the translator's wildcard arm. -/
inductive Node where
  | root (children : List Node)
  | heading (depth : Nat) (children : List Node)
  | paragraph (children : List Node)
  | text (value : String)
  | inlineCode (value : String)
  | code (lang : Option String) (value : String)
  | blockQuote (children : List Node)
  | list (ordered : Bool) (children : List Node)
  | listItem (children : List Node)
  | emphasis (children : List Node)
  | strong (children : List Node)
  | link (url : String) (children : List Node)
  | image (url : String) (alt : String)
  | thematicBreak
  | html (value : String)

/-- Whether a node's kind is one of the six the translator handles; every
other kind hits the `_ => ()` arm. -/
def Node.isHandledKind : Node → Bool
  | .root _ => true
  | .heading _ _ => true
  | .paragraph _ => true
  | .text _ => true
  | .inlineCode _ => true
  | .code _ _ => true
  | _ => false

/-- `std::iter::repeat(s).take(n).collect::<Vec<_>>().join("")`. -/
def repeatJoin (s : String) : Nat → String
  | 0 => ""
  | n + 1 => s ++ repeatJoin s n

mutual

/-- `markdown_to_typst`: the recursive AST translator.  The Rust function
writes into a `String` sink whose `fmt::Write` never fails, so every
`expect` on a write is dead and the function always returns `Ok(())`; it is
therefore embedded as a pure function producing the written text. -/
def markdown_to_typst : Node → String
  | .root cs => markdown_children_to_typst cs
  | .inlineCode ic => "`" ++ ic ++ "`"
  | .heading d cs => repeatJoin "=" d ++ " " ++ markdown_children_to_typst cs ++ "\n\n"
  | .paragraph cs => markdown_children_to_typst cs ++ "\n"
  | .text t => t
  | .code lang v => "```" ++ lang.getD "" ++ "\n" ++ v ++ "```\n"
  | _ => ""

/-- The `children.iter().map(...).for_each(drop)` pattern: translate each
child in order into the same sink. -/
def markdown_children_to_typst : List Node → String
  | [] => ""
  | c :: cs => markdown_to_typst c ++ markdown_children_to_typst cs

end

/-- `convert_markdown_to_typst` with the Markdown parser injected: parse
failures become tagged `md` errors (the `?` with `From<String>`); a
successful parse is translated by `markdown_to_typst`, whose `expect` never
fires. -/
def convert_markdown_to_typst (md_parse : String → Except String Node) (s : String) :
    Except J2TError String :=
  match md_parse s with
  | .error e => .error (.md e)
  | .ok ast => .ok (markdown_to_typst ast)

/-- Joining a cell's `source` fragments: `Vec::try_from` failure propagates
through `?` as a `Json` error, each fragment is unwrapped to a string
(panic on failure), and the fragments are joined with no separator. -/
def join_source (src : Json) : Except J2TError String :=
  match src.asArr? with
  | none => .error (.json "unexpected value for source")
  | some xs => joinStrs xs

/-- The backtick character (code point 96) that `format_cell` rejects in
code-cell sources. -/
def backtick_char : Char := Char.ofNat 96

/-- The message of the `assert!` that rejects backticks in code-cell
sources. -/
def backtick_assert_msg : String := "Currently, code is not allowed to contain backticks!"

/-- The `format!` template of the code-cell branch of `format_cell`:
execution-count badge, `codeblock` with the kernel language and the source,
`resultblock` with the selected output. -/
def code_content (exec_count : Int) (lang code result : String) : String :=
  "\n#move(align(right, box(text([[" ++ toString exec_count ++
  "]], fill: blue), fill: red, inset: 0pt, height: 0pt)), dx: -25pt, dy: 10pt)\n#codeblock(lang: \"" ++
  lang ++ "\", `" ++ code ++ "`.text)\n#resultblock(`" ++ result ++ "`.text)\n\n"

/-- `format_cell`: convert the cell to an object (`?`), read its
`cell_type` (missing key panics, non-string panics), and dispatch: markdown
cells join `source` and run the injected Markdown pipeline; code cells read
`execution_count` (panic when missing or non-numeric), join `source`,
`assert!` the absence of backticks, select the output via
`format_cell_result`, and fill the fixed template; any other `cell_type`
yields the empty string. -/
def format_cell (md_parse : String → Except String Node) (ctx : Context) (cell : Json) :
    Except J2TError String :=
  match cell.asObj? with
  | none => .error (.json "unexpected value for cell")
  | some hm =>
    match jlookup "cell_type" hm with
    | none => .error (.fatal "no entry found for key cell_type")
    | some ctJson =>
      match ctJson.asStr? with
      | none => .error (.fatal "string from cell_type")
      | some cell_type =>
        if cell_type = "markdown" then
          match jlookup "source" hm with
          | none => .error (.fatal "no entry found for key source")
          | some src =>
            match join_source src with
            | .error e => .error e
            | .ok joined => convert_markdown_to_typst md_parse joined
        else if cell_type = "code" then
          match jlookup "execution_count" hm with
          | none => .error (.fatal "no entry found for key execution_count")
          | some ecJson =>
            match ecJson.asNum? with
            | none => .error (.fatal "f64 from execution_count")
            | some exec_count =>
              match jlookup "source" hm with
              | none => .error (.fatal "no entry found for key source")
              | some src =>
                match join_source src with
                | .error e => .error e
                | .ok joined_code =>
                  if joined_code.data.contains backtick_char then
                    .error (.fatal backtick_assert_msg)
                  else
                    match format_cell_result hm with
                    | .error e => .error e
                    | .ok result_joined =>
                      .ok (code_content exec_count ctx.lang joined_code result_joined)
        else .ok ""

/-- The `document_root` preamble constant, written to the output file
before any cell. -/
def document_root : String :=
  "\n#let input_notebook = \"database_and_analysis.ipynb\"\n\n#let sanitize_markdown(md) = md.replace(\"#\", \"=\").replace(\"= \", \"=\")\n\n#let bgcolor_code = luma(230)\n#let bgcolor_result = rgb(\"a7d1de\")\n#let codeblock(\n    lang: \"python\",\n    bgcolor: luma(230),\n    code) = block(fill: bgcolor,\n                  outset: 5pt,\n                  radius: 3pt,\n                  width: 100%,\n                  raw(code, lang: lang))\n#let resultblock(bgcolor: white, stroke: 1pt + luma(150), content) = [\n    #move(\n        align(\n            right, box(\n                inset: 0pt, height: 0pt, \n                text(size: 10pt, fill: luma(140))[_Result:_])),\n            dx: -4em, dy: 12pt)\n    #block(fill: bgcolor, outset: 5pt, radius: 3pt, width: 100%, stroke: stroke, raw(content))\n]\n\n\n"

/-- The hard-coded index list of `main`:
`[0, 1, ..., 11, cells.len() - 1]`.  For `len = 0` the Rust `usize`
subtraction aborts (overflow panic in debug, wrap plus guaranteed
out-of-bounds panic in release); with `Nat` subtraction the final index is
`0`, and indexing the empty cell list with it fails just the same, so the
modelled run also aborts. -/
def assemble_ixs (len : Nat) : List Nat :=
  [0, 1, 2, 3, 4, 5, 6, 7, 8, 9, 10, 11, len - 1]

/-- Whether indexing and formatting cell `i` succeeds — the condition for
the assembly loop of `main` to survive iteration `i`. -/
def cell_ok (md_parse : String → Except String Node) (ctx : Context) (cells : List Json)
    (i : Nat) : Bool :=
  match cells[i]? with
  | none => false
  | some c =>
    match format_cell md_parse ctx c with
    | .ok _ => true
    | .error _ => false

/-- The `for i in ixs` loop of `main`: each iteration indexes `cells[i]`
(out of bounds panics) and writes `format_cell`'s result (`expect "format
failed"` panics).  Returns the `(index, block)` pairs written before any
abort and whether the loop completed. -/
def run_loop (md_parse : String → Except String Node) (ctx : Context) (cells : List Json) :
    List Nat → List (Nat × String) × Bool
  | [] => ([], true)
  | i :: rest =>
    match cells[i]? with
    | none => ([], false)
    | some c =>
      match format_cell md_parse ctx c with
      | .error _ => ([], false)
      | .ok s =>
        let r := run_loop md_parse ctx cells rest
        ((i, s) :: r.1, r.2)

/-- The output-assembly tail of `main`: the preamble template followed by
the formatted blocks the loop managed to write, plus the completion flag. -/
def main_run (md_parse : String → Except String Node) (ctx : Context) (cells : List Json) :
    List String × Bool :=
  let r := run_loop md_parse ctx cells (assemble_ixs cells.length)
  (document_root :: r.1.map Prod.snd, r.2)


/-! ### Concrete inputs and shape predicates used by the claims -/

/-- A Markdown parser stub: cells below never reach the markdown branch, so
the injected parser is irrelevant to them. -/
def md_parse_none : String → Except String Node := fun _ => .error "no markdown parser injected"

/-- A concrete context with kernel language `python`. -/
def ctx_py : Context := ⟨false, "python"⟩

/-- An `execute_result` output record carrying only a `text` field. -/
def out_exec_text (s : String) : Json :=
  .obj [("output_type", .str "execute_result"), ("text", .arr [.str s])]

/-- An `execute_result` output record whose `data` mapping has `text/plain`. -/
def out_exec_plain (s : String) : Json :=
  .obj [("output_type", .str "execute_result"),
        ("data", .obj [("text/plain", .arr [.str s])])]

/-- A `stream` output record with a `text` field. -/
def out_stream_text (s : String) : Json :=
  .obj [("output_type", .str "stream"), ("text", .arr [.str s])]

/-- A `stream` output record carrying a `data` mapping with `text/plain`
and no `text` field. -/
def out_stream_plain (s : String) : Json :=
  .obj [("output_type", .str "stream"),
        ("data", .obj [("text/plain", .arr [.str s])])]

/-- Output list holding, in order: an `execute_result` with only `text`
("A"), an `execute_result` with `text/plain` ("B"), and a `stream` with
`text` ("C"). -/
def cell_exec_text_first : List (String × Json) :=
  [("outputs", Json.arr [out_exec_text "A", out_exec_plain "B", out_stream_text "C"])]

/-- Output list with a `stream` record ("C") placed before an
`execute_result` record with `text/plain` ("B"). -/
def cell_stream_before_exec : List (String × Json) :=
  [("outputs", Json.arr [out_stream_text "C", out_exec_plain "B"])]

/-- The kinds extracted from `cell_stream_before_exec`'s outputs. -/
def kinds_stream_before_exec : List Kind :=
  [⟨some "stream", some (.arr [.str "C"]), none⟩,
   ⟨some "execute_result", none, some (.obj [("text/plain", .arr [.str "B"])])⟩]

/-- Output list with one `execute_result` record carrying only `text`
("X") — no `text/plain` anywhere and no `stream` record. -/
def cell_exec_text_only : List (String × Json) :=
  [("outputs", Json.arr [out_exec_text "X"])]

/-- Output list with an `execute_result` carrying only `text` ("X")
followed by a `stream` with `text` ("C"). -/
def cell_exec_text_then_stream : List (String × Json) :=
  [("outputs", Json.arr [out_exec_text "X", out_stream_text "C"])]

/-- Output list with a single `stream` record whose representation lives in
its `data` mapping's `text/plain` entry ("S"). -/
def cell_stream_plain_only : List (String × Json) :=
  [("outputs", Json.arr [out_stream_plain "S"])]

/-- A well-formed code cell with an empty output list. -/
def cell_code_no_outputs : List (String × Json) :=
  [("cell_type", .str "code"), ("execution_count", .num 2),
   ("source", .arr [.str "1 + 1"]), ("outputs", .arr [])]

/-- A code cell whose joined source contains a backtick. -/
def cell_code_backtick : List (String × Json) :=
  [("cell_type", .str "code"), ("execution_count", .num 3),
   ("source", .arr [.str "s = `oops`"]), ("outputs", .arr [])]

/-- A cell whose `cell_type` is neither `markdown` nor `code`. -/
def cell_raw : Json := .obj [("cell_type", .str "raw")]

/-- Twelve trivially formattable cells. -/
def cells_twelve : List Json := List.replicate 12 cell_raw

/-- Fourteen trivially formattable cells. -/
def cells_fourteen : List Json := List.replicate 14 cell_raw

/-- Well-shapedness of one extracted output record, exactly what the
selector needs to traverse it without aborting: a `data` field, when
present, is an object whose `text/plain` entry, when present, joins to a
string; a `text` field, when present, joins to a string. -/
def KindWellShaped (k : Kind) : Prop :=
  (∀ v, k.data = some v → ∃ m, v = Json.obj m ∧
    (∀ p, jlookup "text/plain" m = some p → ∃ s, join_json_lines_array p = .ok s)) ∧
  (∀ t, k.text = some t → ∃ s, join_json_lines_array t = .ok s)

/-- A record offering neither representation the selector probes: no
`text` field, and either no `data` field or an object `data` mapping
without a `text/plain` entry. -/
def KindNoRepr (k : Kind) : Prop :=
  k.text = none ∧
  (k.data = none ∨ ∃ m, k.data = some (Json.obj m) ∧ jlookup "text/plain" m = none)

/-- The record shape claim C1 talks about: a `data` object mapping with a
`text/plain` entry. -/
def KindHasTextPlain (k : Kind) : Prop :=
  ∃ m p, k.data = some (Json.obj m) ∧ jlookup "text/plain" m = some p


/-! ### Helper lemmas -/

theorem map_ne_bt {α β : Type} (f : α → β) (x : Except J2TError α)
    (h : x ≠ .error (.fatal backtick_assert_msg)) :
    x.map f ≠ .error (.fatal backtick_assert_msg) := by
  cases x with
  | error e => simpa [Except.map] using h
  | ok v => simp [Except.map]

theorem joinStrs_ne_bt (xs : List Json) :
    joinStrs xs ≠ Except.error (.fatal backtick_assert_msg) := by
  induction xs with
  | nil => simp [joinStrs]
  | cons a rest ih =>
    cases a with
    | str s => exact map_ne_bt _ _ ih
    | null => simp [joinStrs, backtick_assert_msg]
    | bool b => simp [joinStrs, backtick_assert_msg]
    | num n => simp [joinStrs, backtick_assert_msg]
    | arr l => simp [joinStrs, backtick_assert_msg]
    | obj m => simp [joinStrs, backtick_assert_msg]

theorem join_json_ne_bt (j : Json) :
    join_json_lines_array j ≠ Except.error (.fatal backtick_assert_msg) := by
  cases j with
  | arr xs => exact joinStrs_ne_bt xs
  | null => simp [join_json_lines_array, Json.asArr?, backtick_assert_msg]
  | bool b => simp [join_json_lines_array, Json.asArr?, backtick_assert_msg]
  | num n => simp [join_json_lines_array, Json.asArr?, backtick_assert_msg]
  | str s => simp [join_json_lines_array, Json.asArr?, backtick_assert_msg]
  | obj m => simp [join_json_lines_array, Json.asArr?, backtick_assert_msg]

theorem probe_text_ne_bt (k : Kind) :
    probe_text k ≠ Except.error (.fatal backtick_assert_msg) := by
  unfold probe_text
  cases k.text with
  | none => simp
  | some t => exact map_ne_bt _ _ (join_json_ne_bt t)

theorem probe_kind_ne_bt (ty : String) (k : Kind) :
    probe_kind ty k ≠ Except.error (.fatal backtick_assert_msg) := by
  unfold probe_kind
  split
  · cases k.data with
    | none => exact probe_text_ne_bt k
    | some v =>
      cases v with
      | obj m =>
        simp only [Json.asObj?]
        cases jlookup "text/plain" m with
        | none => exact probe_text_ne_bt k
        | some e => exact map_ne_bt _ _ (join_json_ne_bt e)
      | null => simp [Json.asObj?, backtick_assert_msg]
      | bool b => simp [Json.asObj?, backtick_assert_msg]
      | num n => simp [Json.asObj?, backtick_assert_msg]
      | str s => simp [Json.asObj?, backtick_assert_msg]
      | arr l => simp [Json.asObj?, backtick_assert_msg]
  · simp

theorem scan_pass_ne_bt (ty : String) (kinds : List Kind) :
    scan_pass ty kinds ≠ Except.error (.fatal backtick_assert_msg) := by
  induction kinds with
  | nil => simp [scan_pass]
  | cons k ks ih =>
    simp only [scan_pass]
    cases hp : probe_kind ty k with
    | error e =>
      have h := probe_kind_ne_bt ty k
      rw [hp] at h
      exact h
    | ok o =>
      cases o with
      | none => exact ih
      | some s => simp

theorem get_type_ne_bt (o : Json) :
    get_type o ≠ Except.error (.fatal backtick_assert_msg) := by
  unfold get_type
  cases o with
  | obj m =>
    simp only [Json.asObj?]
    cases jlookup "output_type" m with
    | none => simp
    | some v =>
      cases v with
      | str s => simp [Json.asStr?]
      | null => simp [Json.asStr?, backtick_assert_msg]
      | bool b => simp [Json.asStr?, backtick_assert_msg]
      | num n => simp [Json.asStr?, backtick_assert_msg]
      | arr l => simp [Json.asStr?, backtick_assert_msg]
      | obj m2 => simp [Json.asStr?, backtick_assert_msg]
  | null => simp [Json.asObj?, backtick_assert_msg]
  | bool b => simp [Json.asObj?, backtick_assert_msg]
  | num n => simp [Json.asObj?, backtick_assert_msg]
  | str s => simp [Json.asObj?, backtick_assert_msg]
  | arr l => simp [Json.asObj?, backtick_assert_msg]

theorem mapExcept_get_type_ne_bt (l : List Json) :
    mapExcept get_type l ≠ Except.error (.fatal backtick_assert_msg) := by
  induction l with
  | nil => simp [mapExcept]
  | cons a rest ih =>
    intro hEq
    simp only [mapExcept] at hEq
    split at hEq
    next e heq =>
      have he : e = J2TError.fatal backtick_assert_msg := by injection hEq
      rw [he] at heq
      exact get_type_ne_bt a heq
    next b heq => exact map_ne_bt _ _ ih hEq

theorem format_cell_result_ne_bt (cell : List (String × Json)) :
    format_cell_result cell ≠ Except.error (.fatal backtick_assert_msg) := by
  intro hEq
  unfold format_cell_result at hEq
  split at hEq
  · simp [backtick_assert_msg] at hEq
  · split at hEq
    · simp at hEq
    · split at hEq
      next e heq =>
        have he : e = J2TError.fatal backtick_assert_msg := by injection hEq
        rw [he] at heq
        exact mapExcept_get_type_ne_bt _ heq
      next kinds heq =>
        split at hEq
        next e2 heq2 =>
          have he : e2 = J2TError.fatal backtick_assert_msg := by injection hEq
          rw [he] at heq2
          exact scan_pass_ne_bt "execute_result" kinds heq2
        next s heq2 => simp at hEq
        next heq2 =>
          split at hEq
          next e3 heq3 =>
            have he : e3 = J2TError.fatal backtick_assert_msg := by injection hEq
            rw [he] at heq3
            exact scan_pass_ne_bt "stream" kinds heq3
          next s heq3 => simp at hEq
          next heq3 => simp at hEq

theorem run_loop_fst_eq_takeWhile (p : String → Except String Node) (ctx : Context)
    (cells : List Json) (ixs : List Nat) :
    ((run_loop p ctx cells ixs).1).map Prod.fst = ixs.takeWhile (cell_ok p ctx cells) := by
  induction ixs with
  | nil => simp [run_loop]
  | cons i rest ih =>
    simp only [run_loop, List.takeWhile_cons]
    cases hc : cells[i]? with
    | none => simp [cell_ok, hc]
    | some c =>
      cases hf : format_cell p ctx c with
      | error e => simp [cell_ok, hc, hf]
      | ok s => simp [cell_ok, hc, hf, ih]

theorem cell_ok_imp_lt (p : String → Except String Node) (ctx : Context) (cells : List Json)
    (i : Nat) (h : cell_ok p ctx cells i = true) : i < cells.length := by
  unfold cell_ok at h
  cases hc : cells[i]? with
  | none => rw [hc] at h; cases h
  | some c => exact (List.getElem?_eq_some_iff.mp hc).1

theorem run_loop_flag_forall (p : String → Except String Node) (ctx : Context)
    (cells : List Json) (ixs : List Nat) (hflag : (run_loop p ctx cells ixs).2 = true) :
    ∀ i ∈ ixs, cell_ok p ctx cells i = true := by
  induction ixs with
  | nil => intro i hi; cases hi
  | cons j rest ih =>
    intro i hi
    simp only [run_loop] at hflag
    split at hflag
    next hc => simp at hflag
    next c hc =>
      split at hflag
      next e hf => simp at hflag
      next s hf =>
        simp only [] at hflag
        cases hi with
        | head => simp [cell_ok, hc, hf]
        | tail _ hi2 => exact ih hflag i hi2

theorem takeWhile_eq_self_of_forall {α : Type} (q : α → Bool) :
    ∀ l : List α, (∀ x ∈ l, q x = true) → l.takeWhile q = l
  | [], _ => rfl
  | a :: l, h => by
    have ha := h a (List.mem_cons_self a l)
    simp [List.takeWhile_cons, ha,
      takeWhile_eq_self_of_forall q l (fun x hx => h x (List.mem_cons_of_mem a hx))]

theorem mem_assemble_ixs_self (len : Nat) (h : len ≤ 11) : len ∈ assemble_ixs len := by
  simp [assemble_ixs]
  omega

theorem chainle_assemble_of_ge (len : Nat) (h : 12 ≤ len) :
    List.Chain' (fun a b => a ≤ b) (assemble_ixs len) := by
  simp [assemble_ixs, List.chain'_cons]
  omega

theorem chainle_written (p : String → Except String Node) (ctx : Context) (cells : List Json) :
    List.Chain' (fun a b => a ≤ b)
      ((assemble_ixs cells.length).takeWhile (cell_ok p ctx cells)) := by
  by_cases h12 : 12 ≤ cells.length
  · exact List.Chain'.prefix (chainle_assemble_of_ge cells.length h12)
      ( List.takeWhile_prefix _)
  · have hpre : (assemble_ixs cells.length).takeWhile (cell_ok p ctx cells) <+:
        assemble_ixs cells.length := List.takeWhile_prefix _
    have hlen13 : ((assemble_ixs cells.length).takeWhile (cell_ok p ctx cells)).length ≤ 13 := by
      have := hpre.length_le
      simpa [assemble_ixs] using this
    rcases Nat.lt_or_ge ((assemble_ixs cells.length).takeWhile (cell_ok p ctx cells)).length 13
      with hl | hl
    · have hp12 : (assemble_ixs cells.length).takeWhile (cell_ok p ctx cells) <+:
          (assemble_ixs cells.length).take 12 :=
        List.prefix_take_iff.mpr ⟨hpre, by omega⟩
      have htake : (assemble_ixs cells.length).take 12 = [0, 1, 2, 3, 4, 5, 6, 7, 8, 9, 10, 11] :=
        rfl
      rw [htake] at hp12
      exact List.Chain'.prefix (by simp [List.chain'_cons]) hp12
    · exfalso
      have heq : (assemble_ixs cells.length).takeWhile (cell_ok p ctx cells) =
          assemble_ixs cells.length :=
        List.IsPrefix.eq_of_length hpre
          (by rw [show (assemble_ixs cells.length).length = 13 from rfl]; omega)
      have hmem : cells.length ∈ (assemble_ixs cells.length).takeWhile (cell_ok p ctx cells) := by
        rw [heq]
        exact mem_assemble_ixs_self cells.length (by omega)
      have hok := List.mem_takeWhile_imp hmem
      exact absurd (cell_ok_imp_lt p ctx cells cells.length hok) (lt_irrefl _)

theorem repeatJoin_data (d : Nat) : (repeatJoin "=" d).data = List.replicate d '=' := by
  induction d with
  | zero => rfl
  | succ n ih => simp [repeatJoin, String.data_append, ih, List.replicate_succ]

theorem markdown_children_append (l1 l2 : List Node) :
    markdown_children_to_typst (l1 ++ l2) =
      markdown_children_to_typst l1 ++ markdown_children_to_typst l2 := by
  induction l1 with
  | nil =>
    apply String.ext
    simp [markdown_children_to_typst, String.data_append]
  | cons c cs ih =>
    apply String.ext
    simp [markdown_children_to_typst, String.data_append, ih]

theorem markdown_unhandled_empty (n : Node) (h : n.isHandledKind = false) :
    markdown_to_typst n = "" := by
  cases n with
  | root cs => exact Bool.noConfusion h
  | heading d cs => exact Bool.noConfusion h
  | paragraph cs => exact Bool.noConfusion h
  | text v => exact Bool.noConfusion h
  | inlineCode v => exact Bool.noConfusion h
  | code lang v => exact Bool.noConfusion h
  | blockQuote cs => rfl
  | list o cs => rfl
  | listItem cs => rfl
  | emphasis cs => rfl
  | strong cs => rfl
  | link u cs => rfl
  | image u a => rfl
  | thematicBreak => rfl
  | html v => rfl

theorem scan_pass_cons_none (ty : String) (k : Kind) (ks : List Kind)
    (h : probe_kind ty k = .ok none) : scan_pass ty (k :: ks) = scan_pass ty ks := by
  simp [scan_pass, h]

theorem scan_pass_cons_some (ty : String) (k : Kind) (ks : List Kind) (s : String)
    (h : probe_kind ty k = .ok (some s)) : scan_pass ty (k :: ks) = .ok (some s) := by
  simp [scan_pass, h]

theorem probe_kind_of_mismatch (ty : String) (k : Kind) (h : ¬ k.output_type = some ty) :
    probe_kind ty k = .ok none := by
  unfold probe_kind
  rw [if_neg h]

theorem probe_kind_of_text_plain (ty : String) (k : Kind) (m : List (String × Json))
    (pj : Json) (s : String) (hty : k.output_type = some ty)
    (hkd : k.data = some (Json.obj m)) (hlk : jlookup "text/plain" m = some pj)
    (hs : join_json_lines_array pj = .ok s) :
    probe_kind ty k = .ok (some (strip_ansi_codes s)) := by
  simp [probe_kind, hty, hkd, Json.asObj?, hlk, hs, Except.map]

theorem probe_kind_of_text (ty : String) (k : Kind) (t : Json) (s : String)
    (hty : k.output_type = some ty) (hkd : k.data = none) (hkt : k.text = some t)
    (hs : join_json_lines_array t = .ok s) :
    probe_kind ty k = .ok (some (strip_ansi_codes s)) := by
  simp [probe_kind, hty, hkd, probe_text, hkt, hs, Except.map]

theorem probe_kind_of_text_no_plain (ty : String) (k : Kind) (m : List (String × Json))
    (t : Json) (s : String) (hty : k.output_type = some ty)
    (hkd : k.data = some (Json.obj m)) (hlk : jlookup "text/plain" m = none)
    (hkt : k.text = some t) (hs : join_json_lines_array t = .ok s) :
    probe_kind ty k = .ok (some (strip_ansi_codes s)) := by
  simp [probe_kind, hty, hkd, Json.asObj?, hlk, probe_text, hkt, hs, Except.map]

theorem probe_kind_none_of_norepr (ty : String) (k : Kind) (h : KindNoRepr k) :
    probe_kind ty k = .ok none := by
  obtain ⟨htext, hdata⟩ := h
  by_cases hty : k.output_type = some ty
  · rcases hdata with hnone | ⟨m, hm, hmp⟩
    · simp [probe_kind, hty, hnone, probe_text, htext]
    · simp [probe_kind, hty, hm, Json.asObj?, hmp, probe_text, htext]
  · exact probe_kind_of_mismatch ty k hty

theorem scan_pass_none_of_norepr (ty : String) :
    ∀ kinds : List Kind, (∀ k ∈ kinds, KindNoRepr k) → scan_pass ty kinds = .ok none := by
  intro kinds
  induction kinds with
  | nil => intro _; rfl
  | cons k ks ih =>
    intro h
    rw [scan_pass_cons_none ty k ks
      (probe_kind_none_of_norepr ty k (h k (List.mem_cons_self k ks)))]
    exact ih (fun x hx => h x (List.mem_cons_of_mem k hx))

theorem scan_pass_some_of_has (ty : String) :
    ∀ kinds : List Kind,
      (∃ k ∈ kinds, k.output_type = some ty ∧ KindHasTextPlain k) →
      (∀ k ∈ kinds, k.output_type = some ty → KindWellShaped k) →
      ∃ s, scan_pass ty kinds = .ok (some s) := by
  intro kinds
  induction kinds with
  | nil =>
    rintro ⟨k, hk, _⟩ _
    cases hk
  | cons k ks ih =>
    rintro ⟨k0, hk0mem, hk0ty, hk0tp⟩ hws
    by_cases hty : k.output_type = some ty
    · obtain ⟨hdata, htext⟩ := hws k (List.mem_cons_self k ks) hty
      cases hkd : k.data with
      | some v =>
        obtain ⟨m, hvm, hmp⟩ := hdata v hkd
        subst hvm
        cases hlk : jlookup "text/plain" m with
        | some pj =>
          obtain ⟨s, hs⟩ := hmp pj hlk
          exact ⟨strip_ansi_codes s,
            scan_pass_cons_some ty k ks _ (probe_kind_of_text_plain ty k m pj s hty hkd hlk hs)⟩
        | none =>
          cases hkt : k.text with
          | some t =>
            obtain ⟨s, hs⟩ := htext t hkt
            exact ⟨strip_ansi_codes s,
              scan_pass_cons_some ty k ks _
                (probe_kind_of_text_no_plain ty k m t s hty hkd hlk hkt hs)⟩
          | none =>
            have hk0ks : k0 ∈ ks := by
              cases hk0mem with
              | head =>
                exfalso
                obtain ⟨m2, p2, hm2, hp2⟩ := hk0tp
                rw [hkd] at hm2
                injection hm2 with hv
                injection hv with hv2
                rw [← hv2] at hp2
                rw [hlk] at hp2
                cases hp2
              | tail _ h2 => exact h2
            obtain ⟨s, hs2⟩ := ih ⟨k0, hk0ks, hk0ty, hk0tp⟩
              (fun x hx hxty => hws x (List.mem_cons_of_mem k hx) hxty)
            refine ⟨s, ?_⟩
            rw [scan_pass_cons_none ty k ks
              (probe_kind_none_of_norepr ty k ⟨hkt, Or.inr ⟨m, hkd, hlk⟩⟩)]
            exact hs2
      | none =>
        cases hkt : k.text with
        | some t =>
          obtain ⟨s, hs⟩ := htext t hkt
          exact ⟨strip_ansi_codes s,
            scan_pass_cons_some ty k ks _ (probe_kind_of_text ty k t s hty hkd hkt hs)⟩
        | none =>
          have hk0ks : k0 ∈ ks := by
            cases hk0mem with
            | head =>
              exfalso
              obtain ⟨m2, p2, hm2, hp2⟩ := hk0tp
              rw [hkd] at hm2
              cases hm2
            | tail _ h2 => exact h2
          obtain ⟨s, hs2⟩ := ih ⟨k0, hk0ks, hk0ty, hk0tp⟩
            (fun x hx hxty => hws x (List.mem_cons_of_mem k hx) hxty)
          refine ⟨s, ?_⟩
          rw [scan_pass_cons_none ty k ks
            (probe_kind_none_of_norepr ty k ⟨hkt, Or.inl hkd⟩)]
          exact hs2
    · have hk0ks : k0 ∈ ks := by
        cases hk0mem with
        | head => exact absurd hk0ty hty
        | tail _ h2 => exact h2
      obtain ⟨s, hs2⟩ := ih ⟨k0, hk0ks, hk0ty, hk0tp⟩
        (fun x hx hxty => hws x (List.mem_cons_of_mem k hx) hxty)
      refine ⟨s, ?_⟩
      rw [scan_pass_cons_none ty k ks (probe_kind_of_mismatch ty k hty)]
      exact hs2

theorem format_cell_result_of_exec (cell : List (String × Json)) (l : List Json)
    (kinds : List Kind) (s : String)
    (hL : jlookup "outputs" cell = some (.arr l))
    (hK : mapExcept get_type l = .ok kinds)
    (hS : scan_pass "execute_result" kinds = .ok (some s)) :
    format_cell_result cell = .ok s := by
  simp [format_cell_result, hL, Json.asArr?, hK, hS]

theorem format_cell_result_empty_of_scans (cell : List (String × Json)) (l : List Json)
    (kinds : List Kind)
    (hL : jlookup "outputs" cell = some (.arr l))
    (hK : mapExcept get_type l = .ok kinds)
    (h1 : scan_pass "execute_result" kinds = .ok none)
    (h2 : scan_pass "stream" kinds = .ok none) :
    format_cell_result cell = .ok "" := by
  simp [format_cell_result, hL, Json.asArr?, hK, h1, h2]

theorem format_cell_code_eq (p : String → Except String Node) (ctx : Context)
    (hm : List (String × Json)) (n : Int) (src : Json) (code r : String)
    (hct : jlookup "cell_type" hm = some (.str "code"))
    (hec : jlookup "execution_count" hm = some (.num n))
    (hsrc : jlookup "source" hm = some src)
    (hjoin : join_source src = .ok code)
    (hbt : code.data.contains backtick_char = false)
    (hres : format_cell_result hm = .ok r) :
    format_cell p ctx (.obj hm) = .ok (code_content n ctx.lang code r) := by
  have hbt2 : backtick_char ∉ code.data := by simpa using hbt
  simp [format_cell, Json.asObj?, hct, Json.asStr?, hec, Json.asNum?, hsrc, hjoin, hbt2, hres]

/-! ### Claim theorems -/

/-- C1 (amended): for every code cell whose outputs list contains both an
`execute_result` record whose data mapping has a `text/plain` entry and a
`stream` record with a `text` field (all `execute_result` records being
well-shaped), `format_cell_result` returns the value selected by the
`execute_result` pass — the first `execute_result` record carrying a
`text/plain` data entry or a `text` field, preferring `text/plain` within
that record — and never the `stream` record's text, regardless of the
relative order of the records in the list. -/
theorem c1_output_precedence_amended (cell : List (String × Json)) (l : List Json)
    (kinds : List Kind)
    (hL : jlookup "outputs" cell = some (.arr l))
    (hK : mapExcept get_type l = .ok kinds)
    (hex : ∃ k ∈ kinds, k.output_type = some "execute_result" ∧ KindHasTextPlain k)
    (hstream : ∃ k ∈ kinds, k.output_type = some "stream" ∧ k.text ≠ none)
    (hws : ∀ k ∈ kinds, k.output_type = some "execute_result" → KindWellShaped k) :
    ∃ s, scan_pass "execute_result" kinds = .ok (some s) ∧
      format_cell_result cell = .ok s := by
  obtain ⟨s, hs⟩ := scan_pass_some_of_has "execute_result" kinds hex hws
  exact ⟨s, hs, format_cell_result_of_exec cell l kinds s hL hK hs⟩

/-- C1 counterexample: the outputs of `cell_exec_text_first` contain an
`execute_result` record whose `text/plain` entry joins to `"B"` and a
`stream` record whose `text` joins to `"C"`, yet `format_cell_result`
returns `"A"`, the `text` field of an earlier `execute_result` record that
has no `text/plain` — not the `text/plain` content the claim promises. -/
theorem c1_counterexample :
    format_cell_result cell_exec_text_first = .ok "A" ∧
    format_cell_result cell_exec_text_first ≠ .ok "B" ∧
    format_cell_result cell_exec_text_first ≠ .ok "C" := by
  refine ⟨rfl, ?_, ?_⟩
  · intro h
    rw [show format_cell_result cell_exec_text_first = .ok "A" from rfl] at h
    simp at h
  · intro h
    rw [show format_cell_result cell_exec_text_first = .ok "A" from rfl] at h
    simp at h

/-- C1 witness: instantiating the amended theorem on a cell whose `stream`
record precedes the `execute_result` record with `text/plain`. -/
theorem c1_witness :
    ∃ s, scan_pass "execute_result" kinds_stream_before_exec = .ok (some s) ∧
      format_cell_result cell_stream_before_exec = .ok s := by
  refine c1_output_precedence_amended cell_stream_before_exec
    [out_stream_text "C", out_exec_plain "B"] kinds_stream_before_exec rfl rfl ?_ ?_ ?_
  · refine ⟨⟨some "execute_result", none, some (.obj [("text/plain", .arr [.str "B"])])⟩,
      List.Mem.tail _ (List.Mem.head _), rfl, ?_⟩
    exact ⟨[("text/plain", .arr [.str "B"])], .arr [.str "B"], rfl, rfl⟩
  · refine ⟨⟨some "stream", some (.arr [.str "C"]), none⟩, List.Mem.head _, rfl, ?_⟩
    simp
  · intro k hk hty
    cases hk with
    | head => simp at hty
    | tail _ h2 =>
      cases h2 with
      | head =>
        constructor
        · intro v hv
          refine ⟨[("text/plain", Json.arr [Json.str "B"])], ?_, ?_⟩
          · injection hv with hv2
            exact hv2.symm
          · intro pq hpq
            have he : some (Json.arr [Json.str "B"]) = some pq :=
              (rfl : jlookup "text/plain" [("text/plain", Json.arr [Json.str "B"])] =
                some (Json.arr [Json.str "B"])).symm.trans hpq
            injection he with he2
            exact ⟨"B", by rw [← he2]; rfl⟩
        · intro t ht
          cases ht
      | tail _ h3 => cases h3

/-- C6 (amended): the selector is total on well-shaped output lists and
returns the empty string whenever no record of any type carries either a
`text/plain` data entry or a `text` field — in particular for the empty
outputs list — and the code-cell formatter still emits its fixed-shape
block around the empty selection.  (The claim's original condition — no
`execute_result` with `text/plain` and no `stream` with `text` — is not
sufficient: see the counterexample.) -/
theorem c6_no_output_default_amended :
    (∀ (cell : List (String × Json)) (l : List Json) (kinds : List Kind),
      jlookup "outputs" cell = some (.arr l) →
      mapExcept get_type l = .ok kinds →
      (∀ k ∈ kinds, KindNoRepr k) →
      format_cell_result cell = .ok "") ∧
    (∀ (p : String → Except String Node) (ctx : Context) (hm : List (String × Json))
      (n : Int) (src : Json) (code : String),
      jlookup "cell_type" hm = some (.str "code") →
      jlookup "execution_count" hm = some (.num n) →
      jlookup "source" hm = some src →
      join_source src = .ok code →
      code.data.contains backtick_char = false →
      jlookup "outputs" hm = some (.arr []) →
      format_cell p ctx (.obj hm) = .ok (code_content n ctx.lang code "")) := by
  constructor
  · intro cell l kinds hL hK hnone
    exact format_cell_result_empty_of_scans cell l kinds hL hK
      (scan_pass_none_of_norepr _ kinds hnone) (scan_pass_none_of_norepr _ kinds hnone)
  · intro p ctx hm n src code hct hec hsrc hjoin hbt houts
    exact format_cell_code_eq p ctx hm n src code "" hct hec hsrc hjoin hbt
      (format_cell_result_empty_of_scans hm [] [] houts rfl rfl rfl)

/-- C6 counterexample: the outputs of `cell_exec_text_only` contain no
`execute_result` record with a `text/plain` data entry and no `stream`
record at all, yet the selected output is `"X"` (the `execute_result`
record's `text` field), not the empty string the claim demands. -/
theorem c6_counterexample :
    format_cell_result cell_exec_text_only = .ok "X" ∧
    format_cell_result cell_exec_text_only ≠ .ok "" := by
  refine ⟨rfl, ?_⟩
  intro h
  rw [show format_cell_result cell_exec_text_only = .ok "X" from rfl] at h
  simp at h

/-- C6 witness: a concrete code cell with an empty outputs list — the
selection is empty and the formatter emits the fixed-shape block around the
empty result. -/
theorem c6_witness :
    format_cell_result cell_code_no_outputs = .ok "" ∧
    format_cell md_parse_none ctx_py (.obj cell_code_no_outputs) =
      .ok (code_content 2 "python" "1 + 1" "") :=
  ⟨c6_no_output_default_amended.1 cell_code_no_outputs [] [] rfl rfl
      (by intro k hk; cases hk),
   c6_no_output_default_amended.2 md_parse_none ctx_py cell_code_no_outputs 2
      (Json.arr [Json.str "1 + 1"]) "1 + 1" rfl rfl rfl rfl rfl rfl⟩

/-- C3: a code cell whose joined source fragments contain a backtick makes
`format_cell` fail (whatever else the cell holds, the conversion aborts
before producing output for the cell); and for a code cell whose joined
source contains no backtick, the backtick `assert!` branch is never the
cause of a failure. -/
theorem c3_backtick_precondition :
    (∀ (p : String → Except String Node) (ctx : Context) (hm : List (String × Json))
      (src : Json) (code : String),
      jlookup "cell_type" hm = some (.str "code") →
      jlookup "source" hm = some src →
      join_source src = .ok code →
      code.data.contains backtick_char = true →
      ∃ e, format_cell p ctx (.obj hm) = .error e) ∧
    (∀ (p : String → Except String Node) (ctx : Context) (hm : List (String × Json))
      (src : Json) (code : String),
      jlookup "cell_type" hm = some (.str "code") →
      jlookup "source" hm = some src →
      join_source src = .ok code →
      code.data.contains backtick_char = false →
      format_cell p ctx (.obj hm) ≠ .error (.fatal backtick_assert_msg)) := by
  constructor
  · intro p ctx hm src code hct hsrc hjoin hbt
    have hbt2 : backtick_char ∈ code.data := by simpa using hbt
    cases hec : jlookup "execution_count" hm with
    | none =>
      exact ⟨.fatal "no entry found for key execution_count",
        by simp [format_cell, Json.asObj?, hct, Json.asStr?, hec]⟩
    | some ec =>
      cases hecn : ec.asNum? with
      | none =>
        exact ⟨.fatal "f64 from execution_count",
          by simp [format_cell, Json.asObj?, hct, Json.asStr?, hec, hecn]⟩
      | some n =>
        exact ⟨.fatal backtick_assert_msg,
          by simp [format_cell, Json.asObj?, hct, Json.asStr?, hec, hecn, hsrc, hjoin, hbt2]⟩
  · intro p ctx hm src code hct hsrc hjoin hbt
    have hbt2 : backtick_char ∉ code.data := by simpa using hbt
    cases hec : jlookup "execution_count" hm with
    | none => simp [format_cell, Json.asObj?, hct, Json.asStr?, hec, backtick_assert_msg]
    | some ec =>
      cases hecn : ec.asNum? with
      | none => simp [format_cell, Json.asObj?, hct, Json.asStr?, hec, hecn, backtick_assert_msg]
      | some n =>
        cases hres : format_cell_result hm with
        | error e =>
          have hfc : format_cell p ctx (.obj hm) = .error e := by
            simp [format_cell, Json.asObj?, hct, Json.asStr?, hec, hecn, hsrc, hjoin, hbt2, hres]
          rw [hfc]
          intro hcontra
          injection hcontra with h2
          rw [h2] at hres
          exact format_cell_result_ne_bt hm hres
        | ok r =>
          simp [format_cell, Json.asObj?, hct, Json.asStr?, hec, hecn, hsrc, hjoin, hbt2, hres]

/-- C3 witness: a concrete backtick-carrying code cell fails, and a
concrete backtick-free code cell does not fail through the backtick
branch. -/
theorem c3_witness :
    (∃ e, format_cell md_parse_none ctx_py (.obj cell_code_backtick) = .error e) ∧
    format_cell md_parse_none ctx_py (.obj cell_code_no_outputs) ≠
      .error (.fatal backtick_assert_msg) :=
  ⟨c3_backtick_precondition.1 md_parse_none ctx_py cell_code_backtick
      (Json.arr [Json.str "s = `oops`"]) "s = `oops`" rfl rfl rfl rfl,
   c3_backtick_precondition.2 md_parse_none ctx_py cell_code_no_outputs
      (Json.arr [Json.str "1 + 1"]) "1 + 1" rfl rfl rfl rfl⟩

/-- C7: a cell whose `cell_type` is neither `markdown` nor `code` makes
`format_cell` return the empty string without failing. -/
theorem c7_unknown_cell_type (p : String → Except String Node) (ctx : Context)
    (hm : List (String × Json)) (t : String)
    (hct : jlookup "cell_type" hm = some (.str t))
    (h1 : t ≠ "markdown") (h2 : t ≠ "code") :
    format_cell p ctx (.obj hm) = .ok "" := by
  simp [format_cell, Json.asObj?, hct, Json.asStr?, h1, h2]

/-- C7 witness: a `raw` cell formats to the empty string. -/
theorem c7_witness :
    ("raw" : String) ≠ "markdown" ∧ ("raw" : String) ≠ "code" ∧
    format_cell md_parse_none ctx_py cell_raw = .ok "" :=
  ⟨by simp, by simp,
   c7_unknown_cell_type md_parse_none ctx_py [("cell_type", Json.str "raw")] "raw" rfl
     (by simp) (by simp)⟩

/-- C8: the escape-sequence stripping step is the identity, so the
selector's returned text equals the joined fragments unchanged. -/
theorem c8_strip_identity :
    (∀ s : String, strip_ansi_codes s = s) ∧
    (∀ j : Json, (join_json_lines_array j).map strip_ansi_codes = join_json_lines_array j) := by
  constructor
  · intro s
    rfl
  · intro j
    cases hj : join_json_lines_array j with
    | error e => simp [Except.map]
    | ok s => simp [Except.map, strip_ansi_codes]

/-- C9: within one pass of the selector, a record of the matching output
type is probed for both representations — its `data` mapping's `text/plain`
entry wins when present, else its `text` field is taken; consequently an
`execute_result` record carrying only `text` is selected in the first pass
ahead of any `stream` record (concretely `"X"` below), and a `stream`
record carrying `text/plain` data is selected from that data in the second
pass (concretely `"S"`). -/
theorem c9_per_record_probing :
    (∀ (ty : String) (k : Kind) (ks : List Kind) (m : List (String × Json)) (pj : Json)
      (s : String),
      k.output_type = some ty → k.data = some (.obj m) →
      jlookup "text/plain" m = some pj → join_json_lines_array pj = .ok s →
      scan_pass ty (k :: ks) = .ok (some (strip_ansi_codes s))) ∧
    (∀ (ty : String) (k : Kind) (ks : List Kind) (t : Json) (s : String),
      k.output_type = some ty → k.data = none → k.text = some t →
      join_json_lines_array t = .ok s →
      scan_pass ty (k :: ks) = .ok (some (strip_ansi_codes s))) ∧
    format_cell_result cell_exec_text_then_stream = .ok "X" ∧
    format_cell_result cell_stream_plain_only = .ok "S" := by
  refine ⟨?_, ?_, rfl, rfl⟩
  · intro ty k ks m pj s hty hkd hlk hs
    exact scan_pass_cons_some ty k ks _ (probe_kind_of_text_plain ty k m pj s hty hkd hlk hs)
  · intro ty k ks t s hty hkd hkt hs
    exact scan_pass_cons_some ty k ks _ (probe_kind_of_text ty k t s hty hkd hkt hs)

/-- C9 witness: the two probing rules applied to concrete single-record
pass inputs. -/
theorem c9_witness :
    scan_pass "execute_result"
      [⟨some "execute_result", none, some (.obj [("text/plain", .arr [.str "B"])])⟩] =
      .ok (some (strip_ansi_codes "B")) ∧
    scan_pass "stream" [⟨some "stream", some (.arr [.str "C"]), none⟩] =
      .ok (some (strip_ansi_codes "C")) :=
  ⟨c9_per_record_probing.1 "execute_result" _ [] [("text/plain", .arr [.str "B"])]
      (.arr [.str "B"]) "B" rfl rfl rfl rfl,
   c9_per_record_probing.2.1 "stream" _ [] (.arr [.str "C"]) "C" rfl rfl rfl rfl⟩

/-- C2: the preamble template is the first thing in the assembled output,
and the cell indices whose formatted blocks are written, taken in write
order, form a non-decreasing sequence — no cell's block ever precedes the
block of an earlier cell, for every notebook and every outcome of the
run. -/
theorem c2_order_preservation (p : String → Except String Node) (ctx : Context)
    (cells : List Json) :
    (main_run p ctx cells).1.head? = some document_root ∧
    List.Chain' (fun a b => a ≤ b)
      (((run_loop p ctx cells (assemble_ixs cells.length)).1).map Prod.fst) := by
  constructor
  · rfl
  · rw [run_loop_fst_eq_takeWhile]
    exact chainle_written p ctx cells

/-- C10: the assembly loop visits exactly indices 0–11 plus `len - 1`;
hence (a) a notebook with fewer than twelve cells always aborts the run,
(b) a twelve-cell notebook that completes writes the last cell's index
twice, and (c) for longer notebooks every index strictly between 11 and
the last is omitted from the output. -/
theorem c10_subset_selection :
    (∀ (p : String → Except String Node) (ctx : Context) (cells : List Json),
      cells.length < 12 → (main_run p ctx cells).2 = false) ∧
    (∀ (p : String → Except String Node) (ctx : Context) (cells : List Json),
      cells.length = 12 →
      (run_loop p ctx cells (assemble_ixs cells.length)).2 = true →
      ((run_loop p ctx cells (assemble_ixs cells.length)).1).map Prod.fst =
        [0, 1, 2, 3, 4, 5, 6, 7, 8, 9, 10, 11, 11]) ∧
    (∀ (p : String → Except String Node) (ctx : Context) (cells : List Json) (j : Nat),
      12 ≤ j → j + 2 ≤ cells.length →
      j ∉ ((run_loop p ctx cells (assemble_ixs cells.length)).1).map Prod.fst) := by
  refine ⟨?_, ?_, ?_⟩
  · intro p ctx cells hlen
    have hmr : (main_run p ctx cells).2 =
        (run_loop p ctx cells (assemble_ixs cells.length)).2 := rfl
    rw [hmr]
    cases hflag : (run_loop p ctx cells (assemble_ixs cells.length)).2 with
    | false => rfl
    | true =>
      exfalso
      have hall := run_loop_flag_forall p ctx cells (assemble_ixs cells.length) hflag
      have hok := hall cells.length (mem_assemble_ixs_self cells.length (by omega))
      exact absurd (cell_ok_imp_lt p ctx cells cells.length hok) (lt_irrefl _)
  · intro p ctx cells hlen hflag
    rw [run_loop_fst_eq_takeWhile]
    rw [takeWhile_eq_self_of_forall (cell_ok p ctx cells) (assemble_ixs cells.length)
      (run_loop_flag_forall p ctx cells (assemble_ixs cells.length) hflag)]
    rw [hlen]
    rfl
  · intro p ctx cells j hj hjl
    rw [run_loop_fst_eq_takeWhile]
    intro hmem
    have hpre : (assemble_ixs cells.length).takeWhile (cell_ok p ctx cells) <+:
        assemble_ixs cells.length := List.takeWhile_prefix _
    have hmem2 : j ∈ assemble_ixs cells.length := hpre.sublist.subset hmem
    simp [assemble_ixs] at hmem2
    omega

/-- C10 witness: an empty notebook aborts; twelve trivially formattable
cells produce the index sequence ending in a duplicated 11; with fourteen
cells the index 12 is omitted. -/
theorem c10_witness :
    (main_run md_parse_none ctx_py []).2 = false ∧
    ((run_loop md_parse_none ctx_py cells_twelve (assemble_ixs cells_twelve.length)).1).map
      Prod.fst = [0, 1, 2, 3, 4, 5, 6, 7, 8, 9, 10, 11, 11] ∧
    12 ∉ ((run_loop md_parse_none ctx_py cells_fourteen
      (assemble_ixs cells_fourteen.length)).1).map Prod.fst :=
  ⟨c10_subset_selection.1 md_parse_none ctx_py [] (by decide),
   c10_subset_selection.2.1 md_parse_none ctx_py cells_twelve rfl rfl,
   c10_subset_selection.2.2 md_parse_none ctx_py cells_fourteen 12 (by decide) (by decide)⟩

/-- C4: a Heading node of depth `d` (for `1 ≤ d ≤ 6`) translates to
exactly `d` heading-marker characters, one space, the concatenated
translations of the children, and exactly two newline characters. -/
theorem c4_heading_fidelity (d : Nat) (cs : List Node) (h1 : 1 ≤ d) (h2 : d ≤ 6) :
    (markdown_to_typst (Node.heading d cs)).data =
      List.replicate d '=' ++ ' ' :: ((markdown_children_to_typst cs).data ++ ['\n', '\n']) := by
  show (repeatJoin "=" d ++ " " ++ markdown_children_to_typst cs ++ "\n\n").data = _
  simp [String.data_append, repeatJoin_data,
    show (" " : String).data = [' '] from rfl,
    show ("\n\n" : String).data = ['\n', '\n'] from rfl]

/-- C4 witness: a depth-3 heading over a single text child. -/
theorem c4_witness :
    1 ≤ 3 ∧ 3 ≤ 6 ∧
    (markdown_to_typst (Node.heading 3 [Node.text "T"])).data =
      List.replicate 3 '=' ++ ' ' ::
        ((markdown_children_to_typst [Node.text "T"]).data ++ ['\n', '\n']) :=
  ⟨by decide, by decide, c4_heading_fidelity 3 [Node.text "T"] (by decide) (by decide)⟩

/-- C5: the translator is total over the node grammar — it is a plain Lean
function, the Rust original's error path being dead code — and every node
kind outside the six handled ones contributes exactly the empty string:
dropping such a node from a Root's children leaves the translation
unchanged. -/
theorem c5_totality_unhandled :
    (∀ n : Node, n.isHandledKind = false → markdown_to_typst n = "") ∧
    (∀ (cs1 cs2 : List Node) (n : Node), n.isHandledKind = false →
      markdown_to_typst (Node.root (cs1 ++ n :: cs2)) =
        markdown_to_typst (Node.root (cs1 ++ cs2))) := by
  constructor
  · exact markdown_unhandled_empty
  · intro cs1 cs2 n h
    show markdown_children_to_typst (cs1 ++ n :: cs2) = markdown_children_to_typst (cs1 ++ cs2)
    rw [markdown_children_append, markdown_children_append]
    have hstep : markdown_children_to_typst (n :: cs2) = markdown_children_to_typst cs2 := by
      show markdown_to_typst n ++ markdown_children_to_typst cs2 = _
      rw [markdown_unhandled_empty n h]
      apply String.ext
      simp [String.data_append]
    rw [hstep]

/-- C5 witness: a thematic break contributes nothing, alone or amid a
Root's children. -/
theorem c5_witness :
    Node.thematicBreak.isHandledKind = false ∧
    markdown_to_typst Node.thematicBreak = "" ∧
    markdown_to_typst (Node.root ([Node.text "a"] ++ Node.thematicBreak :: [Node.text "b"])) =
      markdown_to_typst (Node.root ([Node.text "a"] ++ [Node.text "b"])) :=
  ⟨rfl, c5_totality_unhandled.1 Node.thematicBreak rfl,
   c5_totality_unhandled.2 [Node.text "a"] [Node.text "b"] Node.thematicBreak rfl⟩

end J2T
